import Mathlib

/-!
Shallow embedding of `src/tiff_loader.py` and `src/plot_thumb.py` from
the repository `example-python-tiff-handler`, together with proofs of
the behavioural claims about the two scripts.

Library calls (rasterio's `mask`, shapely's `union`/`is_valid`,
geopandas' `to_crs`, Python's `float`) are modelled as abstract
parameters; file contents (rasters, shapefiles, CSV text) are modelled
as explicit data.  Failure by an uncaught Python exception (IndexError,
ValueError) is modelled as `Option.none`.
-/

set_option autoImplicit false

/-- A raw raster cell value: either NaN or a numeric value.
Numeric values are abstracted to integers; the only float behaviour the
scripts depend on is NaN handling and the integer cast. -/
inductive PVal where
  | nan : PVal
  | num : Int → PVal
deriving DecidableEq, Repr

/-- A single raster band: `height` rows of `width` cells
(`tif_image[b, :, :]`). -/
abbrev Band := List (List PVal)

/-- A raster as read by `rasterio`: `tif_image` is a 3-d array
indexed band, row, column; `shape[0]` is the number of bands. -/
structure Raster where
  bands : List Band
deriving DecidableEq, Repr

/-- `tif_image.shape[1]` (the row count of the first band). -/
def Raster.height (r : Raster) : Nat := (r.bands.headD []).length

/-- `tif_image.shape[2]` (the column count of the first row). -/
def Raster.width (r : Raster) : Nat := ((r.bands.headD []).headD []).length

/-- Every band of the list is an `h × w` grid (what being a numpy array
of shape `(·, h, w)` guarantees). -/
def bandsWF (bs : List Band) (h w : Nat) : Prop :=
  ∀ b ∈ bs, b.length = h ∧ ∀ row ∈ b, row.length = w

instance (bs : List Band) (h w : Nat) : Decidable (bandsWF bs h w) := by
  unfold bandsWF; infer_instance

/-- A coordinate reference system, kept abstract (`rasterio.crs.CRS`). -/
structure CRS where
  id : Nat
deriving DecidableEq, Repr

/-- An affine transform (`affine.Affine`), carried opaquely. -/
structure Affine where
  a : Int
  b : Int
  c : Int
  d : Int
  e : Int
  f : Int
deriving DecidableEq, Repr

/-- The `src.meta` dictionary of a rasterio dataset: the four keys the
code touches are explicit; everything else (dtype, nodata, count, crs)
is the opaque `rest`. -/
structure TifMeta (A : Type) where
  driver : String
  height : Nat
  width : Nat
  transform : Option Affine
  rest : A
deriving DecidableEq, Repr

/-- A raster file on disk as `rasterio.open` exposes it: its CRS, its
full pixel data (`src.read()`) and its metadata (`src.meta`). -/
structure RasterFile (A : Type) where
  crs : CRS
  data : Raster
  meta : TifMeta A
deriving DecidableEq, Repr

/-- A shapefile as `gpd.read_file(...)['geometry']` exposes it: a list
of geometries of an abstract geometry type `G`. -/
structure ShapeFile (G : Type) where
  geometries : List G
deriving DecidableEq, Repr

/-- The geometry library operations `load_shape` calls, abstracted:
shapely's `union` and `is_valid` and geopandas' `to_crs` (reprojection
to a target CRS). -/
structure GeoLib (G : Type) where
  union : G → G → G
  is_valid : G → Bool
  to_crs : CRS → G → G

/-- `np.nan_to_num` followed by `astype(int)` on one cell: NaN becomes
0, numbers keep their integer value. -/
def nan_to_num (v : PVal) : Int :=
  match v with
  | .nan => 0
  | .num x => x

/-- Storing an `int` value into a `np.uint8` array cell: reduction
modulo 2^8. -/
def u8 (x : Int) : Nat := (x % 256).toNat

/-- Pointwise combination of three equally long lists (the numpy
broadcast assignments from three bands into three channels). -/
def zipWith3 {α β γ δ : Type} (f : α → β → γ → δ) : List α → List β → List γ → List δ
  | a :: as, b :: bs, c :: cs => f a b c :: zipWith3 f as bs cs
  | _, _, _ => []

/-- A PNG image as `height` rows of `width` pixels, each pixel a list
of channel values (uint8, so natural numbers below 256). -/
abbrev PngImage := List (List (List Nat))

/-- `TiffLoader.create_png_image`.  Single-band rasters give an
`(h, w, 1)` image; otherwise bands 0, 1, 2 are stored into channels
2, 1, 0; with fewer than 3 bands (and not exactly 1) the indexing
`tmp[1]` or `tmp[2]` raises IndexError (`none`). -/
def create_png_image (tif_image : Raster) : Option PngImage :=
  match tif_image.bands with
  | [b0] =>
      some (b0.map (fun row => row.map (fun v => [u8 (nan_to_num v)])))
  | b0 :: b1 :: b2 :: _ =>
      some (zipWith3
        (fun r0 r1 r2 =>
          zipWith3
            (fun v0 v1 v2 => [u8 (nan_to_num v2), u8 (nan_to_num v1), u8 (nan_to_num v0)])
            r0 r1 r2)
        b0 b1 b2)
  | _ => none

/-- Access a pixel channel of a PNG image (out of range gives 0). -/
def pngPx (png : PngImage) (i j k : Nat) : Nat :=
  ((png.getD i []).getD j []).getD k 0

/-- Access a raster cell (out of range gives `num 0`). -/
def rasterPx (r : Raster) (b i j : Nat) : PVal :=
  ((r.bands.getD b []).getD i []).getD j (.num 0)

/-- The state a successfully constructed `TiffLoader` holds:
`self.tif_image`, `self.tif_transform`, `self.tif_meta`,
`self.png_image`. -/
structure TiffLoaderState (A : Type) where
  tif_image : Raster
  tif_transform : Option Affine
  tif_meta : TifMeta A
deriving DecidableEq, Repr

/-- The single write `save_tif_image` performs: target filename, the
metadata passed to `rasterio.open(..., "w", **meta)` and the band data
written by `dest.write`. -/
structure WriteCall (A : Type) where
  filename : String
  meta : TifMeta A
  data : Raster
deriving DecidableEq, Repr

/-- `TiffLoader.load_tif_image`: `tif_transform` starts as `None`; with
a shape the raster is masked and cropped (`mask(src, [shape],
crop=True)`), which also produces the transform; without one the full
raster is read.  Either way `tif_meta` is `src.meta`. -/
def load_tif_image {A G : Type} (maskCrop : RasterFile A → List G → Raster × Affine)
    (src : RasterFile A) (shape : Option G) : Raster × Option Affine × TifMeta A :=
  match shape with
  | some s => ((maskCrop src [s]).1, some (maskCrop src [s]).2, src.meta)
  | none => (src.data, none, src.meta)

/-- `TiffLoader.load_shape`: read the geometries, reproject them to the
image CRS, keep the valid ones, then union them iteratively starting
from the first valid one (which the loop unions with itself once).
An empty valid list makes `shapely_shapes[0]` raise IndexError. -/
def load_shape {G : Type} (lib : GeoLib G) (sf : ShapeFile G) (image_crs : CRS) :
    Option G :=
  let shapes := sf.geometries.map (lib.to_crs image_crs)
  let shapely_shapes := shapes.filter lib.is_valid
  match shapely_shapes with
  | [] => none
  | g0 :: _ => some (shapely_shapes.foldl lib.union g0)

/-- The tail of `TiffLoader.__init__` once the optional shape is known:
load the raster (masked or not) and build the PNG array. -/
def initLoaded {A G : Type} (maskCrop : RasterFile A → List G → Raster × Affine)
    (image : RasterFile A) (shape : Option G) : Option (TiffLoaderState A) :=
  let r := load_tif_image maskCrop image shape
  match create_png_image r.1 with
  | none => none
  | some _ => some ⟨r.1, r.2.1, r.2.2⟩

/-- `TiffLoader.__init__`: with a shapefile, first read the image CRS
and build the unified shape, then load and convert; `none` models an
uncaught exception during construction. -/
def tiffLoaderInit {A G : Type} (lib : GeoLib G)
    (maskCrop : RasterFile A → List G → Raster × Affine)
    (image : RasterFile A) (shapeFile : Option (ShapeFile G)) :
    Option (TiffLoaderState A) :=
  match shapeFile with
  | none => initLoaded maskCrop image none
  | some sf =>
      match load_shape lib sf image.crs with
      | none => none
      | some s => initLoaded maskCrop image (some s)

/-- `TiffLoader.save_tif_image`: update the stored metadata with driver
GTiff, the spatial dimensions of the band array and the load-time
transform, then write the band data. -/
def save_tif_image {A : Type} (st : TiffLoaderState A) (output_filename : String) :
    WriteCall A :=
  { filename := output_filename
    meta := { st.tif_meta with
                driver := "GTiff"
                height := st.tif_image.height
                width := st.tif_image.width
                transform := st.tif_transform }
    data := st.tif_image }

/-- One row of the plot data: `[filename, date, value]`.  The float
value is abstracted to an integer (only equality of values matters). -/
structure Row where
  filename : String
  date : String
  value : Int
deriving DecidableEq, Repr

/-- One thumbnail overlay added by `create_thumbnail_pictures`: the
data index it was added at and the data placed in the box. -/
structure ThumbMark where
  idx : Nat
  filename : String
  date : String
  value : Int
deriving DecidableEq, Repr

/-- The loop body of `create_thumbnail_pictures`: `prev` is
`previous_percentage` (`None` before the first iteration), `i` the
current index, `n` the total data length. -/
def thumbGo (n : Nat) : Option Int → Nat → List Row → List ThumbMark
  | _, _, [] => []
  | prev, i, r :: tl =>
      (if prev ≠ some r.value ∨ i = n - 1 then [⟨i, r.filename, r.date, r.value⟩] else [])
        ++ thumbGo n (some r.value) (i + 1) tl

/-- `create_thumbnail_pictures`, modelled as the list of thumbnail
overlays it adds to the axes. -/
def create_thumbnail_pictures (data : List Row) : List ThumbMark :=
  thumbGo data.length none 0 data

/-- Splitting a character list at the `';'` delimiter: the quote-free
behaviour of `csv.reader(..., delimiter=';')` on one record. -/
def splitFieldsAux : List Char → List String
  | [] => [""]
  | c :: cs =>
      let rest := splitFieldsAux cs
      if c = ';' then "" :: rest
      else String.mk (c :: (rest.headD "").data) :: rest.tail

/-- Splitting one CSV line at the `';'` delimiter. -/
def splitSemi (line : String) : List String :=
  splitFieldsAux line.data

/-- The body of the `load_csv` loop over the non-header rows: each line
is split on the delimiter, fields 0, 1, 2 are taken and field 2 passed
to `float`; a missing field (IndexError) or a failed `float`
(ValueError) aborts. -/
def parseRows {F : Type} (toFloat : String → Option F) :
    List String → Option (List (String × String × F))
  | [] => some []
  | line :: rest =>
      let row := splitSemi line
      match row[0]?, row[1]?, row[2]? with
      | some f0, some f1, some f2 =>
          match toFloat f2 with
          | some v => (parseRows toFloat rest).map (fun tlData => (f0, f1, v) :: tlData)
          | none => none
      | _, _, _ => none

/-- `load_csv`: read the file with delimiter `';'`, skip the first line
(`line_count > 0`), and collect `[row[0], row[1], float(row[2])]` for
every remaining line.  `toFloat` abstracts Python's `float`. -/
def load_csv {F : Type} (toFloat : String → Option F) (fileLines : List String) :
    Option (List (String × String × F)) :=
  match fileLines with
  | [] => some []
  | _header :: rest => parseRows toFloat rest

/-! ### Concrete example data (used by the closed instances below) -/

/-- Default row used by `List.getD` in statements about the plot data. -/
def row0 : Row := ⟨"", "", 0⟩

/-- Two data points with the same value: only the first changes, but the
last point always gets a thumbnail. -/
def dEx : List Row :=
  [⟨"a.png", "2020-01-01", 1⟩, ⟨"b.png", "2020-01-08", 1⟩]

/-- Three data points whose value changes at index 1. -/
def dEx2 : List Row :=
  [⟨"a.png", "2020-01-01", 1⟩, ⟨"b.png", "2020-01-08", 2⟩, ⟨"c.png", "2020-01-15", 2⟩]

/-- A 1-band 1×1 raster whose only cell is NaN. -/
def rEx1 : Raster := ⟨[[[PVal.nan]]]⟩

/-- First band of a 3-band example (value above 255, exercising the
uint8 wrap-around). -/
def bEx0 : Band := [[PVal.num 300]]

/-- Second band of a 3-band example. -/
def bEx1 : Band := [[PVal.num 7]]

/-- Third band of a 3-band example (a NaN cell). -/
def bEx2 : Band := [[PVal.nan]]

/-- A concrete geometry library on `Nat`: union is `max` (idempotent),
a geometry is valid when positive, reprojection is the identity. -/
def libEx : GeoLib Nat := ⟨Nat.max, fun g => decide (0 < g), fun _ g => g⟩

/-- A geometry library in which no geometry is valid. -/
def libInvalid : GeoLib Nat := ⟨Nat.max, fun _ => false, fun _ g => g⟩

/-- An example affine transform. -/
def affEx : Affine := ⟨2, 0, 0, 0, 2, 0⟩

/-- Example metadata of a raster file. -/
def metaEx : TifMeta Nat := ⟨"GTiff", 9, 9, some ⟨1, 0, 0, 0, 1, 0⟩, 42⟩

/-- A 1-band 1×1 raster file. -/
def imageEx : RasterFile Nat := ⟨⟨4326⟩, ⟨[[[PVal.num 5]]]⟩, metaEx⟩

/-- A concrete mask operation: returns the source data unchanged
together with `affEx`. -/
def maskEx : RasterFile Nat → List Nat → Raster × Affine :=
  fun src _ => (src.data, affEx)

/-- A shapefile with geometries 0 (invalid under `libEx`), 2 and 1. -/
def sfEx : ShapeFile Nat := ⟨[0, 2, 1]⟩

/-- The loader state obtained from `imageEx` without a shapefile. -/
def stEx : TiffLoaderState Nat := ⟨imageEx.data, none, imageEx.meta⟩

/-- The loader state obtained from `imageEx` with `sfEx`. -/
def st3Ex : TiffLoaderState Nat := ⟨imageEx.data, some affEx, imageEx.meta⟩

/-- A two-line example CSV file (header plus one data row). -/
def csvLinesEx : List String := ["file;date;value", "a.png;2020-01-01;5"]

/-- A concrete stand-in for Python's `float`. -/
def toFloatEx : String → Option Int := fun s => if s = "5" then some 5 else none


/-! ### Helper lemmas -/

lemma u8_lt (x : Int) : u8 x < 256 := by
  unfold u8; omega

lemma u8_nan : u8 (nan_to_num PVal.nan) = 0 := rfl

lemma zipWith3_length {α β γ δ : Type} (f : α → β → γ → δ) :
    ∀ (as : List α) (bs : List β) (cs : List γ),
      (zipWith3 f as bs cs).length = min as.length (min bs.length cs.length) := by
  intro as
  induction as with
  | nil => intro bs cs; cases bs <;> cases cs <;> simp [zipWith3]
  | cons a as ih =>
      intro bs cs
      cases bs with
      | nil => cases cs <;> simp [zipWith3]
      | cons b bs =>
        cases cs with
        | nil => simp [zipWith3]
        | cons c cs => simp [zipWith3, ih bs cs]; omega

lemma mem_zipWith3 {α β γ δ : Type} {f : α → β → γ → δ} :
    ∀ {as : List α} {bs : List β} {cs : List γ} {x : δ},
      x ∈ zipWith3 f as bs cs → ∃ a ∈ as, ∃ b ∈ bs, ∃ c ∈ cs, x = f a b c := by
  intro as
  induction as with
  | nil => intro bs cs x hx; cases bs <;> cases cs <;> simp [zipWith3] at hx
  | cons a as ih =>
      intro bs cs x hx
      cases bs with
      | nil => cases cs <;> simp [zipWith3] at hx
      | cons b bs =>
        cases cs with
        | nil => simp [zipWith3] at hx
        | cons c cs =>
            rcases List.mem_cons.mp hx with rfl | hx'
            · exact ⟨a, by simp, b, by simp, c, by simp, rfl⟩
            · obtain ⟨a', ha, b', hb, c', hc, hx⟩ := ih hx'
              exact ⟨a', by simp [ha], b', by simp [hb], c', by simp [hc], hx⟩

lemma zipWith3_getD {α β γ δ : Type} (f : α → β → γ → δ) (a0 : α) (b0 : β) (c0 : γ) (d : δ) :
    ∀ (as : List α) (bs : List β) (cs : List γ) (i : Nat),
      i < as.length → i < bs.length → i < cs.length →
      (zipWith3 f as bs cs).getD i d = f (as.getD i a0) (bs.getD i b0) (cs.getD i c0) := by
  intro as
  induction as with
  | nil => intro bs cs i h1 _ _; simp at h1
  | cons a as ih =>
      intro bs cs i h1 h2 h3
      cases bs with
      | nil => simp at h2
      | cons b bs =>
        cases cs with
        | nil => simp at h3
        | cons c cs =>
            cases i with
            | zero => simp [zipWith3]
            | succ m =>
                simp only [zipWith3, List.getD_cons_succ]
                exact ih bs cs m (by simpa using h1) (by simpa using h2) (by simpa using h3)

lemma getD_map_lt {α β : Type} (f : α → β) (l : List α) (i : Nat) (hi : i < l.length)
    (d : β) (d0 : α) : (l.map f).getD i d = f (l.getD i d0) := by
  induction l generalizing i with
  | nil => simp at hi
  | cons a l ih =>
      cases i with
      | zero => simp
      | succ m => simpa using ih m (by simpa using hi)

lemma getD_mem_of_lt {α : Type} (l : List α) (i : Nat) (hi : i < l.length) (d : α) :
    l.getD i d ∈ l := by
  induction l generalizing i with
  | nil => simp at hi
  | cons a l ih =>
      cases i with
      | zero => simp
      | succ m => simpa using Or.inr (ih m (by simpa using hi))

/-! ### Claims C1, C2, C3, C7, C8, C9 -/

/-- Claim C1: loading is optionally masked.  With `shape = None`,
`load_tif_image` returns the full raster read from the file and a
`None` transform; with a shape it returns the raster masked and cropped
to that shape together with the transform produced by the mask
operation.  In both cases `tif_meta` is the source file's metadata. -/
theorem claim_C1_load_tif_image_optional_mask {A G : Type}
    (maskCrop : RasterFile A → List G → Raster × Affine) (src : RasterFile A) :
    load_tif_image maskCrop src (none : Option G) = (src.data, none, src.meta) ∧
    ∀ s : G, load_tif_image maskCrop src (some s) =
      ((maskCrop src [s]).1, some (maskCrop src [s]).2, src.meta) :=
  ⟨rfl, fun _ => rfl⟩

/-- Claim C2: when at least one (reprojected) geometry is valid,
`load_shape` drops the invalid geometries and returns the iterative
union of the valid ones, which — because the loop unions the first
valid geometry with itself once and union is idempotent — equals the
fold of union over the valid-geometry list. -/
theorem claim_C2_load_shape_union_of_valid {G : Type} (lib : GeoLib G)
    (sf : ShapeFile G) (image_crs : CRS)
    (hu : ∀ g, lib.union g g = g) (g0 : G) (rest : List G)
    (hv : (sf.geometries.map (lib.to_crs image_crs)).filter lib.is_valid = g0 :: rest) :
    load_shape lib sf image_crs = some (rest.foldl lib.union g0) := by
  simp only [load_shape, hv, List.foldl_cons, hu g0]

/-- Claim C9: with no valid geometry (an empty geometry list included),
`load_shape` fails with an out-of-range index on the empty filtered
list instead of returning a shape. -/
theorem claim_C9_load_shape_needs_valid_geometry {G : Type} (lib : GeoLib G)
    (sf : ShapeFile G) (image_crs : CRS)
    (h : ∀ g ∈ sf.geometries, lib.is_valid (lib.to_crs image_crs g) = false) :
    load_shape lib sf image_crs = none := by
  have hf : (sf.geometries.map (lib.to_crs image_crs)).filter lib.is_valid = [] := by
    rw [List.filter_eq_nil_iff]
    intro a ha
    obtain ⟨g, hg, rfl⟩ := List.mem_map.mp ha
    simp [h g hg]
  simp only [load_shape, hf]

/-- Claim C3: when a shapefile is given, the geometries are reprojected
to the raster image's CRS before the union is formed and before the
raster is masked: the raster and transform held by a successfully
constructed loader are the result of masking with the union of the
valid geometries of the reprojected list. -/
theorem claim_C3_mask_in_image_crs {A G : Type} (lib : GeoLib G)
    (maskCrop : RasterFile A → List G → Raster × Affine)
    (image : RasterFile A) (sf : ShapeFile G) (st : TiffLoaderState A)
    (hu : ∀ g, lib.union g g = g)
    (h : tiffLoaderInit lib maskCrop image (some sf) = some st) :
    ∃ g0 rest,
      (sf.geometries.map (lib.to_crs image.crs)).filter lib.is_valid = g0 :: rest ∧
      st.tif_image = (maskCrop image [rest.foldl lib.union g0]).1 ∧
      st.tif_transform = some (maskCrop image [rest.foldl lib.union g0]).2 := by
  simp only [tiffLoaderInit] at h
  rcases hls : load_shape lib sf image.crs with _ | s
  · rw [hls] at h; exact absurd h (by simp)
  · rw [hls] at h
    simp only [initLoaded, load_tif_image] at h
    rcases hpng : create_png_image (maskCrop image [s]).1 with _ | png
    · rw [hpng] at h; exact absurd h (by simp)
    · rw [hpng] at h
      obtain rfl := (Option.some.inj h).symm
      simp only [load_shape] at hls
      rcases hv : (sf.geometries.map (lib.to_crs image.crs)).filter lib.is_valid with
        _ | ⟨g0, rest⟩
      · rw [hv] at hls; exact absurd hls (by simp)
      · rw [hv] at hls
        have hs : s = rest.foldl lib.union g0 := by
          have := Option.some.inj hls
          rw [← this, List.foldl_cons, hu g0]
        exact ⟨g0, rest, rfl, by rw [hs], by rw [hs]⟩

/-- Claim C7: `save_tif_image` writes exactly the loaded band data with
driver GTiff, spatial dimensions taken from the array, and the
load-time transform — which is `None` whenever the loader was built
without a shapefile, replacing the source file's original transform. -/
theorem claim_C7_save_tif_image_spec {A : Type} (st : TiffLoaderState A)
    (out : String) :
    (save_tif_image st out).filename = out ∧
    (save_tif_image st out).data = st.tif_image ∧
    (save_tif_image st out).meta.driver = "GTiff" ∧
    (save_tif_image st out).meta.transform = st.tif_transform ∧
    (save_tif_image st out).meta.rest = st.tif_meta.rest ∧
    (∀ h w, 0 < h → st.tif_image.bands ≠ [] → bandsWF st.tif_image.bands h w →
      (save_tif_image st out).meta.height = h ∧
      (save_tif_image st out).meta.width = w) ∧
    (∀ (G : Type) (lib : GeoLib G)
        (maskCrop : RasterFile A → List G → Raster × Affine) (image : RasterFile A),
      tiffLoaderInit lib maskCrop image none = some st →
      st.tif_transform = none ∧ st.tif_image = image.data) := by
  refine ⟨rfl, rfl, rfl, rfl, rfl, ?_, ?_⟩
  · intro h w hpos hne hwf
    rcases hbs : st.tif_image.bands with _ | ⟨b, bs⟩
    · exact absurd hbs hne
    · obtain ⟨hbl, hbrow⟩ := hwf b (by rw [hbs]; simp)
      constructor
      · simp [save_tif_image, Raster.height, hbs, hbl]
      · rcases hb : b with _ | ⟨row, rows⟩
        · rw [hb] at hbl; simp at hbl; omega
        · have hrw : row.length = w := hbrow row (by rw [hb]; simp)
          simp [save_tif_image, Raster.width, hbs, hb, hrw]
  · intro G lib maskCrop image h
    simp only [tiffLoaderInit, initLoaded, load_tif_image] at h
    rcases hpng : create_png_image image.data with _ | png
    · rw [hpng] at h; exact absurd h (by simp)
    · rw [hpng] at h
      obtain rfl := (Option.some.inj h).symm
      exact ⟨rfl, rfl⟩

/-- Claim C8: `create_png_image` succeeds exactly when the raster has 1
band or at least 3 bands; with exactly 2 bands the multi-band branch
indexes the missing band 2 and fails with IndexError instead of
returning an image. -/
theorem claim_C8_create_png_image_band_precondition (r : Raster) :
    ((create_png_image r).isSome ↔ (r.bands.length = 1 ∨ 3 ≤ r.bands.length)) ∧
    (∀ b0 b1, r.bands = [b0, b1] → create_png_image r = none) := by
  obtain ⟨bs⟩ := r
  constructor
  · rcases bs with _ | ⟨b0, _ | ⟨b1, _ | ⟨b2, rest⟩⟩⟩ <;>
      simp [create_png_image]
  · intro b0 b1 hb
    simp only at hb
    subst hb
    rfl


lemma png_single_pixel (b0 : Band) (h w i j : Nat)
    (hlen : b0.length = h) (hrows : ∀ row ∈ b0, row.length = w)
    (hi : i < h) (hj : j < w) :
    ((b0.map (fun row => row.map (fun v => [u8 (nan_to_num v)]))).getD i []).getD j []
      = [u8 (nan_to_num ((b0.getD i []).getD j (PVal.num 0)))] := by
  have hib : i < b0.length := by omega
  have hrw : (b0.getD i []).length = w := hrows _ (getD_mem_of_lt b0 i hib [])
  rw [getD_map_lt _ b0 i hib [] []]
  rw [getD_map_lt _ (b0.getD i []) j (by omega) [] (PVal.num 0)]

lemma png_multi_pixel (b0 b1 b2 : Band) (h w i j : Nat)
    (hl0 : b0.length = h) (hl1 : b1.length = h) (hl2 : b2.length = h)
    (hr0 : ∀ row ∈ b0, row.length = w) (hr1 : ∀ row ∈ b1, row.length = w)
    (hr2 : ∀ row ∈ b2, row.length = w)
    (hi : i < h) (hj : j < w) :
    (((zipWith3 (fun r0 r1 r2 =>
        zipWith3 (fun v0 v1 v2 =>
            [u8 (nan_to_num v2), u8 (nan_to_num v1), u8 (nan_to_num v0)]) r0 r1 r2)
        b0 b1 b2).getD i []).getD j [])
      = [u8 (nan_to_num ((b2.getD i []).getD j (PVal.num 0))),
         u8 (nan_to_num ((b1.getD i []).getD j (PVal.num 0))),
         u8 (nan_to_num ((b0.getD i []).getD j (PVal.num 0)))] := by
  have hrow0 : (b0.getD i []).length = w := hr0 _ (getD_mem_of_lt b0 i (by omega) [])
  have hrow1 : (b1.getD i []).length = w := hr1 _ (getD_mem_of_lt b1 i (by omega) [])
  have hrow2 : (b2.getD i []).length = w := hr2 _ (getD_mem_of_lt b2 i (by omega) [])
  rw [zipWith3_getD _ ([] : List PVal) ([] : List PVal) ([] : List PVal) []
      b0 b1 b2 i (by omega) (by omega) (by omega)]
  rw [zipWith3_getD _ (PVal.num 0) (PVal.num 0) (PVal.num 0) ([] : List Nat)
      _ _ _ j (by omega) (by omega) (by omega)]

/-- Claim C4: for a raster with 1 band or at least 3 bands,
`create_png_image` returns a displayable 8-bit image: shape `(h, w, 1)`
for a single band and `(h, w, 3)` otherwise, every channel value below
256, and every NaN of the raw band array turned into 0 by the
`nan_to_num` step before the integer conversion. -/
theorem claim_C4_create_png_image_displayable (r : Raster) (h w : Nat)
    (hwf : bandsWF r.bands h w)
    (hb : r.bands.length = 1 ∨ 3 ≤ r.bands.length) :
    ∃ png, create_png_image r = some png ∧
      png.length = h ∧
      (∀ row ∈ png, row.length = w) ∧
      (∀ row ∈ png, ∀ px ∈ row,
        px.length = (if r.bands.length = 1 then 1 else 3) ∧ ∀ v ∈ px, v < 256) ∧
      (∀ i j k, i < h → j < w → k < (if r.bands.length = 1 then 1 else 3) →
        rasterPx r (if r.bands.length = 1 then 0 else 2 - k) i j = PVal.nan →
        pngPx png i j k = 0) := by
  obtain ⟨bs⟩ := r
  rcases bs with _ | ⟨b0, _ | ⟨b1, _ | ⟨b2, rest⟩⟩⟩
  · simp at hb
  · -- single band
    have hb0 := hwf b0 (by simp)
    refine ⟨_, rfl, ?_, ?_, ?_, ?_⟩
    · simpa using hb0.1
    · intro row hrow
      obtain ⟨row0, hrow0, rfl⟩ := List.mem_map.mp hrow
      simpa using hb0.2 row0 hrow0
    · intro row hrow px hpx
      obtain ⟨row0, hrow0, rfl⟩ := List.mem_map.mp hrow
      obtain ⟨v, _, rfl⟩ := List.mem_map.mp hpx
      refine ⟨by simp, ?_⟩
      intro x hx
      simp only [List.mem_singleton] at hx
      subst hx
      exact u8_lt _
    · intro i j k hi hj hk hnan
      have hk0 : k = 0 := by simp at hk; omega
      subst hk0
      simp only [List.length_singleton, if_pos] at hnan
      have hv : (b0.getD i []).getD j (PVal.num 0) = PVal.nan := by
        simpa [rasterPx] using hnan
      unfold pngPx
      rw [png_single_pixel b0 h w i j hb0.1 hb0.2 hi hj, hv]
      rfl
  · simp at hb
  · -- at least three bands
    have h0 := hwf b0 (by simp)
    have h1 := hwf b1 (by simp)
    have h2 := hwf b2 (by simp)
    have hne1 : (b0 :: b1 :: b2 :: rest).length ≠ 1 := by
      simp only [List.length_cons]; omega
    refine ⟨_, rfl, ?_, ?_, ?_, ?_⟩
    · rw [zipWith3_length]
      rw [h0.1, h1.1, h2.1]
      simp
    · intro row hrow
      obtain ⟨r0, hr0, r1, hr1, r2, hr2, rfl⟩ := mem_zipWith3 hrow
      rw [zipWith3_length]
      rw [h0.2 r0 hr0, h1.2 r1 hr1, h2.2 r2 hr2]
      simp
    · intro row hrow px hpx
      obtain ⟨r0, hr0, r1, hr1, r2, hr2, rfl⟩ := mem_zipWith3 hrow
      obtain ⟨v0, _, v1, _, v2, _, rfl⟩ := mem_zipWith3 hpx
      refine ⟨by rw [if_neg hne1]; rfl, ?_⟩
      intro x hx
      simp only [List.mem_cons, List.mem_singleton, List.not_mem_nil, or_false] at hx
      rcases hx with rfl | rfl | rfl <;> exact u8_lt _
    · intro i j k hi hj hk hnan
      rw [if_neg hne1] at hk hnan
      have hpix := png_multi_pixel b0 b1 b2 h w i j h0.1 h1.1 h2.1 h0.2 h1.2 h2.2 hi hj
      unfold pngPx
      rw [hpix]
      interval_cases k
      · have hv : (b2.getD i []).getD j (PVal.num 0) = PVal.nan := by
          simpa [rasterPx] using hnan
        rw [hv]; rfl
      · have hv : (b1.getD i []).getD j (PVal.num 0) = PVal.nan := by
          simpa [rasterPx] using hnan
        rw [hv]; rfl
      · have hv : (b0.getD i []).getD j (PVal.num 0) = PVal.nan := by
          simpa [rasterPx] using hnan
        rw [hv]; rfl

/-- Claim C10: with at least 3 bands, `create_png_image` stores the
bands in reversed (BGR) channel order — band 0 into channel 2, band 1
into channel 1, band 2 into channel 0 — ignores every band beyond the
third, and reduces each stored value modulo 2^8 by the uint8
assignment. -/
theorem claim_C10_bgr_channel_order (b0 b1 b2 : Band) (rest : List Band) (h w : Nat)
    (hwf : bandsWF (b0 :: b1 :: b2 :: rest) h w) :
    ∃ png, create_png_image ⟨b0 :: b1 :: b2 :: rest⟩ = some png ∧
      create_png_image ⟨b0 :: b1 :: b2 :: rest⟩ = create_png_image ⟨[b0, b1, b2]⟩ ∧
      ∀ i j, i < h → j < w →
        pngPx png i j 0 = (nan_to_num (rasterPx ⟨b0 :: b1 :: b2 :: rest⟩ 2 i j) % 2 ^ 8).toNat ∧
        pngPx png i j 1 = (nan_to_num (rasterPx ⟨b0 :: b1 :: b2 :: rest⟩ 1 i j) % 2 ^ 8).toNat ∧
        pngPx png i j 2 = (nan_to_num (rasterPx ⟨b0 :: b1 :: b2 :: rest⟩ 0 i j) % 2 ^ 8).toNat := by
  have h0 := hwf b0 (by simp)
  have h1 := hwf b1 (by simp)
  have h2 := hwf b2 (by simp)
  refine ⟨_, rfl, rfl, ?_⟩
  intro i j hi hj
  have hpix := png_multi_pixel b0 b1 b2 h w i j h0.1 h1.1 h2.1 h0.2 h1.2 h2.2 hi hj
  unfold pngPx
  rw [hpix]
  refine ⟨?_, ?_, ?_⟩ <;> simp [rasterPx, u8]

/-! ### Claim C5: thumbnail placement -/

lemma thumbGo_cons (n : Nat) (prev : Option Int) (i : Nat) (r : Row) (tl : List Row) :
    thumbGo n prev i (r :: tl) =
      (if prev ≠ some r.value ∨ i = n - 1 then [⟨i, r.filename, r.date, r.value⟩] else [])
        ++ thumbGo n (some r.value) (i + 1) tl := rfl

lemma getD_cons_pred (r : Row) (tl : List Row) (k : Nat) :
    some (((r :: tl).getD k row0).value)
      = if k = 0 then some r.value else some ((tl.getD (k - 1) row0).value) := by
  cases k with
  | zero => simp
  | succ m => simp

lemma thumbCond_succ (prev : Option Int) (r : Row) (tl : List Row) (i n k : Nat) :
    (((if k + 1 = 0 then prev else some (((r :: tl).getD (k + 1 - 1) row0).value))
        ≠ some (((r :: tl).getD (k + 1) row0).value)) ∨ i + (k + 1) = n - 1)
      ↔ (((if k = 0 then some r.value else some ((tl.getD (k - 1) row0).value))
        ≠ some ((tl.getD k row0).value)) ∨ (i + 1) + k = n - 1) := by
  have harith : i + (k + 1) = (i + 1) + k := by omega
  rw [harith]
  simp only [Nat.succ_ne_zero, if_false, Nat.add_sub_cancel, List.getD_cons_succ]
  rw [getD_cons_pred]

lemma thumbGo_idx_iff (n : Nat) (tl : List Row) : ∀ (prev : Option Int) (i j : Nat),
    ((∃ a ∈ thumbGo n prev i tl, a.idx = j) ↔
      ∃ k, k < tl.length ∧ j = i + k ∧
        ((if k = 0 then prev else some ((tl.getD (k - 1) row0).value))
            ≠ some ((tl.getD k row0).value) ∨ i + k = n - 1)) := by
  induction tl with
  | nil =>
      intro prev i j
      simp [thumbGo]
  | cons r tl ih =>
      intro prev i j
      constructor
      · rintro ⟨a, ha, haj⟩
        rw [thumbGo_cons] at ha
        rcases List.mem_append.mp ha with hmem | hmem
        · by_cases hc : prev ≠ some r.value ∨ i = n - 1
          · rw [if_pos hc] at hmem
            simp only [List.mem_singleton] at hmem
            subst hmem
            have hij : i = j := haj
            refine ⟨0, by simp, by omega, ?_⟩
            simpa using hc
          · rw [if_neg hc] at hmem
            simp at hmem
        · obtain ⟨k, hk, hjk, hP⟩ := (ih (some r.value) (i + 1) j).mp ⟨a, hmem, haj⟩
          refine ⟨k + 1, by simpa using hk, by omega, ?_⟩
          exact (thumbCond_succ prev r tl i n k).mpr hP
      · rintro ⟨k, hk, rfl, hP⟩
        cases k with
        | zero =>
            have hc : prev ≠ some r.value ∨ i = n - 1 := by simpa using hP
            refine ⟨⟨i, r.filename, r.date, r.value⟩, ?_, by simp⟩
            rw [thumbGo_cons, if_pos hc]
            simp
        | succ m =>
            have hP' := (thumbCond_succ prev r tl i n m).mp hP
            obtain ⟨a, ha, haj⟩ := (ih (some r.value) (i + 1) (i + (m + 1))).mpr
              ⟨m, by simpa using hk, by omega, hP'⟩
            refine ⟨a, ?_, haj⟩
            rw [thumbGo_cons]
            exact List.mem_append.mpr (Or.inr ha)

/-- Claim C5 (counterexample): with two rows of equal value, the code
still places a thumbnail at the last data point (index 1) although the
value there does not differ from the preceding one, refuting
"thumbnails appear exactly at the points where the value changes". -/
theorem claim_C5_counterexample_last_point :
    (∃ a ∈ create_thumbnail_pictures dEx, a.idx = 1) ∧
    ¬ (dEx.getD 1 row0).value ≠ (dEx.getD 0 row0).value := by
  constructor <;> decide

/-- Claim C5 (amended): `create_thumbnail_pictures` overlays a
thumbnail at data index `i` exactly when `i` is the first point, the
value differs from the immediately preceding point, or `i` is the last
point (the code's `or (i == len(data) - 1)` clause). -/
theorem claim_C5_amended_change_points (data : List Row) (i : Nat)
    (hi : i < data.length) :
    (∃ a ∈ create_thumbnail_pictures data, a.idx = i) ↔
      (i = 0 ∨ (data.getD (i - 1) row0).value ≠ (data.getD i row0).value ∨
        i = data.length - 1) := by
  unfold create_thumbnail_pictures
  rw [thumbGo_idx_iff]
  constructor
  · rintro ⟨k, hk, hik, hP⟩
    have hk' : k = i := by omega
    subst hk'
    rcases hP with hne | hlast
    · by_cases h0 : k = 0
      · exact Or.inl h0
      · refine Or.inr (Or.inl ?_)
        rw [if_neg h0] at hne
        intro hval
        exact hne (by rw [hval])
    · exact Or.inr (Or.inr (by omega))
  · intro hcase
    refine ⟨i, hi, by omega, ?_⟩
    rcases hcase with h0 | hne | hlast
    · subst h0
      left
      simp
    · left
      by_cases h0 : i = 0
      · subst h0
        simp
      · rw [if_neg h0]
        intro hsome
        exact hne (Option.some.inj hsome)
    · right
      omega

/-! ### Claim C6: CSV loading -/

lemma getElem?_eq_some_getD {α : Type} (l : List α) (idx : Nat) (h : idx < l.length)
    (d : α) : l[idx]? = some (l.getD idx d) := by
  induction l generalizing idx with
  | nil => simp at h
  | cons a l ih =>
      cases idx with
      | zero => simp
      | succ m => simpa using ih m (by simpa using h)

lemma parseRows_spec {F : Type} (toFloat : String → Option F) :
    ∀ (rows : List String),
      (∀ line ∈ rows, 3 ≤ (splitSemi line).length ∧
          (toFloat ((splitSemi line).getD 2 "")).isSome) →
      ∃ data, parseRows toFloat rows = some data ∧
        data.length = rows.length ∧
        ∀ m, m < rows.length →
          data[m]? = (toFloat ((splitSemi (rows.getD m "")).getD 2 "")).map
            (fun v => ((splitSemi (rows.getD m "")).getD 0 "",
                       (splitSemi (rows.getD m "")).getD 1 "", v)) := by
  intro rows
  induction rows with
  | nil =>
      intro _
      exact ⟨[], rfl, rfl, by intro m hm; simp at hm⟩
  | cons line rest ih =>
      intro hwf
      obtain ⟨hlen, hsome⟩ := hwf line (by simp)
      obtain ⟨data, hdata, hdlen, hdidx⟩ := ih (fun l hl => hwf l (by simp [hl]))
      obtain ⟨v, hv⟩ := Option.isSome_iff_exists.mp hsome
      have h0 := getElem?_eq_some_getD (splitSemi line) 0 (by omega) ""
      have h1 := getElem?_eq_some_getD (splitSemi line) 1 (by omega) ""
      have h2 := getElem?_eq_some_getD (splitSemi line) 2 (by omega) ""
      refine ⟨((splitSemi line).getD 0 "", (splitSemi line).getD 1 "", v) :: data,
        ?_, by simp [hdlen], ?_⟩
      · simp only [parseRows]
        rw [h0, h1, h2]
        simp only [hv, hdata, Option.map_some']
      · intro m hm
        cases m with
        | zero =>
            simp only [List.getD_cons_zero, List.getElem?_cons_zero]
            rw [hv]
            rfl
        | succ m' =>
            simp only [List.getD_cons_succ, List.getElem?_cons_succ]
            exact hdidx m' (by simpa using hm)

/-- Claim C6: `load_csv` splits on the `';'` delimiter, skips exactly
the header line, and returns one `(row[0], row[1], float(row[2]))`
entry per remaining line in file order, so the result length is the
number of lines minus one. -/
theorem claim_C6_load_csv_spec (F : Type) (toFloat : String → Option F)
    (fileLines : List String)
    (hwf : ∀ line ∈ fileLines.tail, 3 ≤ (splitSemi line).length ∧
        (toFloat ((splitSemi line).getD 2 "")).isSome) :
    ∃ data, load_csv toFloat fileLines = some data ∧
      data.length = fileLines.length - 1 ∧
      ∀ m, m < fileLines.length - 1 →
        data[m]? = (toFloat ((splitSemi (fileLines.getD (m + 1) "")).getD 2 "")).map
          (fun v => ((splitSemi (fileLines.getD (m + 1) "")).getD 0 "",
                     (splitSemi (fileLines.getD (m + 1) "")).getD 1 "", v)) := by
  cases fileLines with
  | nil => exact ⟨[], rfl, rfl, by intro m hm; simp at hm⟩
  | cons header rest =>
      obtain ⟨data, hdata, hlen, hidx⟩ := parseRows_spec toFloat rest (by simpa using hwf)
      refine ⟨data, hdata, by simpa using hlen, ?_⟩
      intro m hm
      simpa using hidx m (by simpa using hm)

/-! ### Closed instances of the theorems with hypotheses -/

theorem claim_C2_witness :
    load_shape libEx sfEx ⟨4326⟩ = some ([1].foldl libEx.union 2) :=
  claim_C2_load_shape_union_of_valid libEx sfEx ⟨4326⟩
    (fun g => Nat.max_self g) 2 [1] (by decide)

theorem claim_C3_witness :
    ∃ g0 rest,
      (sfEx.geometries.map (libEx.to_crs imageEx.crs)).filter libEx.is_valid = g0 :: rest ∧
      st3Ex.tif_image = (maskEx imageEx [rest.foldl libEx.union g0]).1 ∧
      st3Ex.tif_transform = some (maskEx imageEx [rest.foldl libEx.union g0]).2 :=
  claim_C3_mask_in_image_crs libEx maskEx imageEx sfEx st3Ex
    (fun g => Nat.max_self g) (by decide)

theorem claim_C4_witness :
    ∃ png, create_png_image rEx1 = some png ∧
      png.length = 1 ∧
      (∀ row ∈ png, row.length = 1) ∧
      (∀ row ∈ png, ∀ px ∈ row,
        px.length = (if rEx1.bands.length = 1 then 1 else 3) ∧ ∀ v ∈ px, v < 256) ∧
      (∀ i j k, i < 1 → j < 1 → k < (if rEx1.bands.length = 1 then 1 else 3) →
        rasterPx rEx1 (if rEx1.bands.length = 1 then 0 else 2 - k) i j = PVal.nan →
        pngPx png i j k = 0) :=
  claim_C4_create_png_image_displayable rEx1 1 1 (by decide) (by decide)

theorem claim_C5_witness :
    (∃ a ∈ create_thumbnail_pictures dEx2, a.idx = 1) ↔
      (1 = 0 ∨ (dEx2.getD (1 - 1) row0).value ≠ (dEx2.getD 1 row0).value ∨
        1 = dEx2.length - 1) :=
  claim_C5_amended_change_points dEx2 1 (by decide)

theorem claim_C6_witness :
    ∃ data, load_csv toFloatEx csvLinesEx = some data ∧
      data.length = csvLinesEx.length - 1 ∧
      ∀ m, m < csvLinesEx.length - 1 →
        data[m]? = (toFloatEx ((splitSemi (csvLinesEx.getD (m + 1) "")).getD 2 "")).map
          (fun v => ((splitSemi (csvLinesEx.getD (m + 1) "")).getD 0 "",
                     (splitSemi (csvLinesEx.getD (m + 1) "")).getD 1 "", v)) :=
  claim_C6_load_csv_spec Int toFloatEx csvLinesEx (by decide)

theorem claim_C7_witness :
    ((save_tif_image stEx "out.tif").meta.height = 1 ∧
      (save_tif_image stEx "out.tif").meta.width = 1) ∧
    (stEx.tif_transform = none ∧ stEx.tif_image = imageEx.data) :=
  ⟨(claim_C7_save_tif_image_spec stEx "out.tif").2.2.2.2.2.1 1 1
      (by decide) (by decide) (by decide),
   (claim_C7_save_tif_image_spec stEx "out.tif").2.2.2.2.2.2 Nat libEx maskEx imageEx
      (by decide)⟩

theorem claim_C8_witness :
    create_png_image ⟨[[[PVal.num 1]], [[PVal.num 2]]]⟩ = none :=
  (claim_C8_create_png_image_band_precondition ⟨[[[PVal.num 1]], [[PVal.num 2]]]⟩).2
    [[PVal.num 1]] [[PVal.num 2]] rfl

theorem claim_C9_witness :
    load_shape libInvalid sfEx ⟨4326⟩ = none :=
  claim_C9_load_shape_needs_valid_geometry libInvalid sfEx ⟨4326⟩ (by decide)

theorem claim_C10_witness :
    ∃ png, create_png_image ⟨bEx0 :: bEx1 :: bEx2 :: []⟩ = some png ∧
      create_png_image ⟨bEx0 :: bEx1 :: bEx2 :: []⟩ = create_png_image ⟨[bEx0, bEx1, bEx2]⟩ ∧
      ∀ i j, i < 1 → j < 1 →
        pngPx png i j 0
          = (nan_to_num (rasterPx ⟨bEx0 :: bEx1 :: bEx2 :: []⟩ 2 i j) % 2 ^ 8).toNat ∧
        pngPx png i j 1
          = (nan_to_num (rasterPx ⟨bEx0 :: bEx1 :: bEx2 :: []⟩ 1 i j) % 2 ^ 8).toNat ∧
        pngPx png i j 2
          = (nan_to_num (rasterPx ⟨bEx0 :: bEx1 :: bEx2 :: []⟩ 0 i j) % 2 ^ 8).toNat :=
  claim_C10_bgr_channel_order bEx0 bEx1 bEx2 [] 1 1 (by decide)
